import Mathlib

/-!
Verification of the `env` Go package (caleflat/env): an annotation-driven
loader that populates a struct from process environment variables.

The embedding translates `src/env.go` directly:

* the process environment is a function `String → Option String`
  (the shape of `os.LookupEnv`);
* Go values reachable by the traversal are modelled by the mutual
  inductives `GoValue` / `GoFields`; struct fields carry their `env` tag
  and their exported-ness (reflect's `CanSet` / read-only flag);
* machine integers are `Int` / `Nat` with explicit `% 2^64` where the Go
  code converts (`uint64(...)`); `int64` / `uint64` ranges appear as
  explicit bounds in the parsing functions;
* `float64` values are modelled by `ℚ`; `strconv.ParseFloat` is modelled
  from the spec ("float parsing follows standard decimal literal rules"),
  since IEEE-754 rounding is outside the shallow embedding.  No settled
  verdict depends on float rounding;
* reflect panics (`NumField` on a non-struct, `Addr` of an unaddressable
  value, `Interface` on a value obtained from an unexported field) are an
  explicit `panicked` outcome;
* narrower widths (`int8` … `int32`, `uint8` … `uint32`, `float32`) are
  not modelled separately: the claims under check only distinguish the
  64-bit ranges.  Pointer-typed fields are not modelled (no claim
  mentions them); consequently the `value.IsValid()` and
  `reflect.Ptr` dereference steps of `setField` never fire in the model
  and are recorded as comments at their source position.
-/

namespace env

/-- A process environment, as seen through `os.LookupEnv`:
`none` means the variable is unset, `some s` means it is set to `s`
(possibly the empty string). -/
def Env : Type := String → Option String

/-- Go source, `Get` (env.go:170): `os.LookupEnv`; unset variables read
as the empty string. -/
def Get (E : Env) (key : String) : String :=
  match E key with
  | none => ""
  | some value => value

/-- Value of a list of decimal digit characters, accumulator style;
`none` as soon as a non-digit is met (strconv rejects the whole string). -/
def digitsValAux : List Char → Nat → Option Nat
  | [], acc => some acc
  | c :: cs, acc =>
      if c.isDigit then digitsValAux cs (acc * 10 + (c.toNat - 48)) else none

/-- Value of a non-empty all-digit character list; `none` otherwise. -/
def digitsVal : List Char → Option Nat
  | [] => none
  | c :: cs => digitsValAux (c :: cs) 0

/-- Go source, `parseInt` (env.go:239): `strconv.ParseInt(value, 10, 64)`.
Optional single sign, then one or more decimal digits; the result must
fit in `int64` (range errors are errors). -/
def parseIntGo (s : String) : Option Int :=
  match s.toList with
  | [] => none
  | c :: cs =>
      if c = '+' then
        (digitsVal cs).bind (fun n => if n ≤ 2 ^ 63 - 1 then some (n : Int) else none)
      else if c = '-' then
        (digitsVal cs).bind (fun n => if n ≤ 2 ^ 63 then some (-(n : Int)) else none)
      else
        (digitsVal (c :: cs)).bind (fun n => if n ≤ 2 ^ 63 - 1 then some (n : Int) else none)

/-- Go source, `parseUint` (env.go:243): `strconv.ParseUint(value, 10, 64)`.
No sign permitted; one or more decimal digits; must fit in `uint64`. -/
def parseUintGo (s : String) : Option Nat :=
  match s.toList with
  | [] => none
  | c :: cs =>
      (digitsVal (c :: cs)).bind (fun n => if n ≤ 2 ^ 64 - 1 then some n else none)

/-- Go source, `parseBool` (env.go:247): `strconv.ParseBool`, which
accepts exactly twelve strings. -/
def parseBoolGo (s : String) : Option Bool :=
  if s = "1" ∨ s = "t" ∨ s = "T" ∨ s = "true" ∨ s = "TRUE" ∨ s = "True" then some true
  else if s = "0" ∨ s = "f" ∨ s = "F" ∨ s = "false" ∨ s = "FALSE" ∨ s = "False" then some false
  else none

/-- Decimal fraction grammar: digits, optionally a dot and more digits,
evaluated exactly in `ℚ`. -/
def parseDecimal (cs : List Char) : Option ℚ :=
  match digitsVal (cs.takeWhile Char.isDigit) with
  | none => none
  | some n =>
      match cs.dropWhile Char.isDigit with
      | [] => some (n : ℚ)
      | c :: frac =>
          if c = '.' then
            match digitsVal frac with
            | none => none
            | some m => some ((n : ℚ) + (m : ℚ) / (10 : ℚ) ^ frac.length)
          else none

/-- Modelled from the spec: `strconv.ParseFloat(value, 64)` (env.go:251)
is not shallowly embeddable (IEEE-754 rounding); per spec §4.1 "float
parsing follows standard base-10 / decimal literal rules", it is modelled
as exact evaluation of a signed decimal literal in `ℚ`. -/
def parseFloatGo (s : String) : Option ℚ :=
  match s.toList with
  | [] => none
  | c :: cs =>
      if c = '+' then parseDecimal cs
      else if c = '-' then (parseDecimal cs).map (fun q => -q)
      else parseDecimal (c :: cs)

/-- Go source, `ParseInt` (env.go:181): empty string or parse error give
the default. -/
def ParseInt (value : String) (defaultValue : Int) : Int :=
  if value = "" then defaultValue
  else
    match parseIntGo value with
    | none => defaultValue
    | some i => i

/-- Go source, `ParseUint` (env.go:196). -/
def ParseUint (value : String) (defaultValue : Nat) : Nat :=
  if value = "" then defaultValue
  else
    match parseUintGo value with
    | none => defaultValue
    | some i => i

/-- Go source, `ParseBool` (env.go:211). -/
def ParseBool (value : String) (defaultValue : Bool) : Bool :=
  if value = "" then defaultValue
  else
    match parseBoolGo value with
    | none => defaultValue
    | some b => b

/-- Go source, `ParseFloat` (env.go:226). -/
def ParseFloat (value : String) (defaultValue : ℚ) : ℚ :=
  if value = "" then defaultValue
  else
    match parseFloatGo value with
    | none => defaultValue
    | some f => f

/-- Go source, `GetString` (env.go:103): an empty looked-up value (unset,
or set to the empty string) yields the default. -/
def GetString (E : Env) (key : String) (defaultValue : String) : String :=
  let value := Get E key
  if value = "" then defaultValue
  else value

/-- Go source, `GetInt64` (env.go:120). -/
def GetInt64 (E : Env) (key : String) (defaultValue : Int) : Int :=
  let value := Get E key
  if value = "" then defaultValue
  else ParseInt value defaultValue

/-- Go source, `GetUint64` (env.go:137). -/
def GetUint64 (E : Env) (key : String) (defaultValue : Nat) : Nat :=
  let value := Get E key
  if value = "" then defaultValue
  else ParseUint value defaultValue

/-- Go source, `GetBool` (env.go:148). -/
def GetBool (E : Env) (key : String) (defaultValue : Bool) : Bool :=
  let value := Get E key
  if value = "" then defaultValue
  else ParseBool value defaultValue

/-- Go source, `GetFloat64` (env.go:159). -/
def GetFloat64 (E : Env) (key : String) (defaultValue : ℚ) : ℚ :=
  let value := Get E key
  if value = "" then defaultValue
  else ParseFloat value defaultValue

mutual
/-- A Go value of one of the kinds `setField` / `parse` can meet:
string, int64, uint64, bool, float64 (as `ℚ`), a value of an unsupported
kind (`vother`, with a payload so that mutation would be observable), or
a struct. -/
inductive GoValue : Type where
  | vstr (s : String)
  | vint (i : Int)
  | vuint (n : Nat)
  | vbool (b : Bool)
  | vfloat (q : ℚ)
  | vother (payload : Nat)
  | vstruct (fs : GoFields)

/-- The fields of a struct, in declared order: each carries its `env` tag
(`""` when the tag is absent), whether it is exported (reflect lets
`parse` write exactly the exported fields of an addressable struct), and
its value. -/
inductive GoFields : Type where
  | nil
  | cons (tag : String) (exported : Bool) (v : GoValue) (rest : GoFields)
end

/-- The argument of `Parse` / `parse`: a Go `interface{}` holding either
a pointer to a value (the pointee is addressable) or a bare value. -/
inductive GoInput : Type where
  | ptrTo (v : GoValue)
  | byVal (v : GoValue)

/-- Outcome of a call to `parse`: a reflect panic, or a normal return
carrying the returned `error` and the (possibly updated) pointee. -/
inductive PResult : Type where
  | panicked
  | ret (err : Option String) (v : GoValue)

/-- Outcome of the field loop of `parse` over a `GoFields` list. -/
inductive FResult : Type where
  | panicked
  | fret (err : Option String) (fs : GoFields)

/-- Go conversion `uint64(i)` for an `int64` argument: reduction modulo
`2 ^ 64` (two's complement reinterpretation). -/
def goUintOfInt (i : Int) : Nat := (i % (2 ^ 64 : Int)).toNat

/-- Go source, `setField` (env.go:72): skip unsettable fields, then
dispatch on the field kind.  `value.IsValid()` is always true for a
field of a valid struct, and pointer-kind fields (the `reflect.Ptr`
dereference at env.go:81) are outside the model, so those two early
steps never fire here.  Note the uint case converts the result of the
signed resolver: `value.SetUint(uint64(GetInt64(env, 0)))`. -/
def setField (E : Env) (canSet : Bool) (v : GoValue) (key : String) :
    Option String × GoValue :=
  if canSet = false then (none, v)
  else
    match v with
    | .vstr _ => (none, .vstr (GetString E key ""))
    | .vint _ => (none, .vint (GetInt64 E key 0))
    | .vuint _ => (none, .vuint (goUintOfInt (GetInt64 E key 0)))
    | .vbool _ => (none, .vbool (GetBool E key false))
    | .vfloat _ => (none, .vfloat (GetFloat64 E key 0))
    | w => (none, w)

mutual
/-- Go source, `parse` (env.go:36), after the dereference: `addr` records
whether the traversed value came from a pointer (and is therefore
addressable/settable).  The prefix argument is adjusted (env.go:37-39)
into a binding that is never read afterwards — the source computes the
concatenation candidate but never applies it.  `t.NumField()` on a
non-struct value panics in reflect. -/
def parseVal (E : Env) (addr : Bool) (v : GoValue) (pfx : String) : PResult :=
  let _pfx2 := if pfx ≠ "" then pfx ++ "_" else pfx
  match v with
  | .vstruct fs =>
      match parseFields E addr fs with
      | .panicked => .panicked
      | .fret e fs' => .ret e (.vstruct fs')
  | _ => .panicked

/-- The field loop of `parse` (env.go:47-63).  A struct-kind field is
recursed into via `parse(value.Addr().Interface(), field.Tag.Get(DefaultTag))`:
`Addr` panics when the parent is not addressable, and `Interface` panics
when the field is unexported (reflect's read-only flag survives `Addr`);
the recursive call's error is discarded.  A leaf field with an empty tag
is skipped; otherwise `setField` runs and a non-nil error would be
returned immediately. -/
def parseFields (E : Env) (addr : Bool) (fs : GoFields) : FResult :=
  match fs with
  | .nil => .fret none .nil
  | .cons tag ex v rest =>
      match v with
      | .vstruct gs =>
          if addr = false then .panicked
          else if ex = false then .panicked
          else
            match parseVal E true (.vstruct gs) tag with
            | .panicked => .panicked
            | .ret _e v' =>
                match parseFields E addr rest with
                | .panicked => .panicked
                | .fret e rest' => .fret e (.cons tag ex v' rest')
      | w =>
          if tag = "" then
            match parseFields E addr rest with
            | .panicked => .panicked
            | .fret e rest' => .fret e (.cons tag ex w rest')
          else
            match setField E (addr && ex) w tag with
            | (some err, w') => .fret (some err) (.cons tag ex w' rest)
            | (none, w') =>
                match parseFields E addr rest with
                | .panicked => .panicked
                | .fret e rest' => .fret e (.cons tag ex w' rest')
end

/-- Go source, `parse` (env.go:36), entry: `reflect.ValueOf(config)` and
the pointer dereference of env.go:41-44.  A pointer argument makes the
traversed value addressable; a bare value does not. -/
def parse (E : Env) (config : GoInput) (pfx : String) : PResult :=
  match config with
  | .ptrTo v => parseVal E true v pfx
  | .byVal v => parseVal E false v pfx

/-- Go source, `Parse` (env.go:32): `parse(config, "")`. -/
def Parse (E : Env) (config : GoInput) : PResult :=
  parse E config ""

/-- The underlying value of an input, after the pointer dereference of
env.go:41-44. -/
def derefOf : GoInput → GoValue
  | .ptrTo v => v
  | .byVal v => v

/-- Whether a value is of struct kind. -/
def isStructV : GoValue → Bool
  | .vstruct _ => true
  | _ => false

mutual
/-- Every struct-kind field reachable through struct-kind fields is
exported.  This is exactly the condition under which the traversal of an
addressable struct avoids the reflect panic at the recursion site. -/
def structsExported : GoValue → Bool
  | .vstruct fs => structsExportedF fs
  | _ => true

/-- Field-list form of `structsExported`. -/
def structsExportedF : GoFields → Bool
  | .nil => true
  | .cons _ ex v rest =>
      (match v with
       | .vstruct _ => ex
       | _ => true) && structsExported v && structsExportedF rest
end

mutual
/-- The second value has the same shape as the first and agrees with it
on every unsupported-kind (`vother`) position; all other leaves are
unconstrained.  Used to state that the traversal never mutates a field
of an unsupported kind. -/
def othersKept : GoValue → GoValue → Bool
  | .vother p, .vother q => p == q
  | .vother _, _ => false
  | .vstruct fs, .vstruct gs => othersKeptF fs gs
  | .vstruct _, _ => false
  | _, _ => true

/-- Field-list form of `othersKept`. -/
def othersKeptF : GoFields → GoFields → Bool
  | .nil, .nil => true
  | .cons _ _ v r, .cons _ _ w s => othersKept v w && othersKeptF r s
  | _, _ => false
end

/-- Round-trip target, following the spec's words ("a config equal to
one whose fields are constructed directly with those values"): the value
a leaf field ought to receive when its key is set to a well-formed
literal.  For an unsigned field the literal must moreover fit in
`int64` (`< 2 ^ 63`), the amendment the code's dispatch forces. -/
def roundTripField (E : Env) (tag : String) : GoValue → Option GoValue
  | .vstr _ =>
      match E tag with
      | some s => some (.vstr s)
      | none => none
  | .vint _ => (parseIntGo (Get E tag)).map .vint
  | .vuint _ =>
      match parseUintGo (Get E tag) with
      | some n => if n < 2 ^ 63 then some (.vuint n) else none
      | none => none
  | .vbool _ => (parseBoolGo (Get E tag)).map .vbool
  | .vfloat _ => (parseFloatGo (Get E tag)).map .vfloat
  | _ => none

/-- Well-formedness of a flat field list for the round-trip property:
no nested structs, unsupported fields unannotated, and every annotated
leaf exported with a resolvable key. -/
def flatWF (E : Env) : GoFields → Bool
  | .nil => true
  | .cons tag ex v rest =>
      (match v with
       | .vstruct _ => false
       | .vother _ => tag == ""
       | w => (tag == "") || (ex && (roundTripField E tag w).isSome))
      && flatWF E rest

/-- The directly-constructed flat field list of the round-trip claim. -/
def flatTarget (E : Env) : GoFields → GoFields
  | .nil => .nil
  | .cons tag ex v rest =>
      .cons tag ex (if tag = "" then v else (roundTripField E tag v).getD v)
        (flatTarget E rest)

/-- Well-formedness of a one-level-nested field list: leaves as in
`flatWF`, and struct fields exported with flat well-formed contents. -/
def oneLevelWF (E : Env) : GoFields → Bool
  | .nil => true
  | .cons tag ex v rest =>
      (match v with
       | .vstruct gs => ex && flatWF E gs
       | .vother _ => tag == ""
       | w => (tag == "") || (ex && (roundTripField E tag w).isSome))
      && oneLevelWF E rest

/-- The directly-constructed one-level-nested field list. -/
def oneLevelTarget (E : Env) : GoFields → GoFields
  | .nil => .nil
  | .cons tag ex v rest =>
      .cons tag ex
        (match v with
         | .vstruct gs => .vstruct (flatTarget E gs)
         | w => if tag = "" then w else (roundTripField E tag w).getD w)
        (oneLevelTarget E rest)

/-! ### Basic lemmas about the primitive parsers and `setField` -/

theorem parseIntGo_empty : parseIntGo "" = none := rfl

theorem parseUintGo_empty : parseUintGo "" = none := rfl

theorem parseBoolGo_empty : parseBoolGo "" = none := by decide

theorem parseFloatGo_empty : parseFloatGo "" = none := rfl

theorem Get_eq_of_lookup {E : Env} {k s : String} (h : E k = some s) : Get E k = s := by
  simp [Get, h]

theorem digitsVal_head {c : Char} {cs : List Char} {n : Nat}
    (h : digitsVal (c :: cs) = some n) : c.isDigit = true := by
  by_cases hd : c.isDigit
  · exact hd
  · simp [digitsVal, digitsValAux, hd] at h

theorem isDigit_ne_plus {c : Char} (h : c.isDigit = true) : ¬(c = '+') := by
  intro hc; subst hc; exact absurd h (by decide)

theorem isDigit_ne_minus {c : Char} (h : c.isDigit = true) : ¬(c = '-') := by
  intro hc; subst hc; exact absurd h (by decide)

theorem parseUintGo_cons {s : String} {c : Char} {cs : List Char}
    (hl : s.toList = c :: cs) :
    parseUintGo s =
      (digitsVal (c :: cs)).bind (fun n => if n ≤ 2 ^ 64 - 1 then some n else none) := by
  unfold parseUintGo
  rw [hl]

theorem parseIntGo_cons {s : String} {c : Char} {cs : List Char}
    (hl : s.toList = c :: cs) :
    parseIntGo s =
      (if c = '+' then
        (digitsVal cs).bind (fun n => if n ≤ 2 ^ 63 - 1 then some (n : Int) else none)
      else if c = '-' then
        (digitsVal cs).bind (fun n => if n ≤ 2 ^ 63 then some (-(n : Int)) else none)
      else
        (digitsVal (c :: cs)).bind
          (fun n => if n ≤ 2 ^ 63 - 1 then some (n : Int) else none)) := by
  unfold parseIntGo
  rw [hl]

theorem parseUintGo_digits {s : String} {n : Nat} (h : parseUintGo s = some n) :
    ∃ c cs, s.toList = c :: cs ∧ c.isDigit = true ∧ digitsVal (c :: cs) = some n ∧
      n ≤ 2 ^ 64 - 1 := by
  cases hl : s.toList with
  | nil =>
      unfold parseUintGo at h
      rw [hl] at h
      exact Option.noConfusion h
  | cons c cs =>
      rw [parseUintGo_cons hl] at h
      cases hd : digitsVal (c :: cs) with
      | none => rw [hd] at h; exact Option.noConfusion h
      | some m =>
          rw [hd] at h
          replace h : (if m ≤ 2 ^ 64 - 1 then some m else none) = some n := h
          by_cases hm : m ≤ 2 ^ 64 - 1
          · rw [if_pos hm] at h
            injection h with h'
            subst h'
            exact ⟨c, cs, rfl, digitsVal_head hd, hd, hm⟩
          · rw [if_neg hm] at h
            exact Option.noConfusion h

theorem parseUintGo_parseIntGo_lt {s : String} {n : Nat}
    (h : parseUintGo s = some n) (hlt : n < 2 ^ 63) : parseIntGo s = some (n : Int) := by
  obtain ⟨c, cs, hl, hdig, hd, _⟩ := parseUintGo_digits h
  rw [parseIntGo_cons hl, if_neg (isDigit_ne_plus hdig), if_neg (isDigit_ne_minus hdig), hd]
  show (if n ≤ 2 ^ 63 - 1 then some ((n : Int)) else none) = some (n : Int)
  rw [if_pos (by omega : n ≤ 2 ^ 63 - 1)]

theorem parseUintGo_parseIntGo_ge {s : String} {n : Nat}
    (h : parseUintGo s = some n) (hge : 2 ^ 63 ≤ n) : parseIntGo s = none := by
  obtain ⟨c, cs, hl, hdig, hd, _⟩ := parseUintGo_digits h
  rw [parseIntGo_cons hl, if_neg (isDigit_ne_plus hdig), if_neg (isDigit_ne_minus hdig), hd]
  show (if n ≤ 2 ^ 63 - 1 then some ((n : Int)) else none) = none
  rw [if_neg (by omega : ¬ n ≤ 2 ^ 63 - 1)]

theorem parseIntGo_ne_empty {s : String} {i : Int}
    (h : parseIntGo s = some i) : ¬(s = "") := by
  intro he; subst he; rw [parseIntGo_empty] at h; exact Option.noConfusion h

theorem parseUintGo_ne_empty {s : String} {n : Nat}
    (h : parseUintGo s = some n) : ¬(s = "") := by
  intro he; subst he; rw [parseUintGo_empty] at h; exact Option.noConfusion h

theorem parseBoolGo_ne_empty {s : String} {b : Bool}
    (h : parseBoolGo s = some b) : ¬(s = "") := by
  intro he; subst he; rw [parseBoolGo_empty] at h; exact Option.noConfusion h

theorem parseFloatGo_ne_empty {s : String} {q : ℚ}
    (h : parseFloatGo s = some q) : ¬(s = "") := by
  intro he; subst he; rw [parseFloatGo_empty] at h; exact Option.noConfusion h

theorem setField_fst (E : Env) (c : Bool) (v : GoValue) (k : String) :
    (setField E c v k).1 = none := by
  cases c <;> cases v <;> simp [setField]

mutual
theorem othersKept_refl (v : GoValue) : othersKept v v = true := by
  cases v with
  | vstruct fs => simpa [othersKept] using othersKeptF_refl fs
  | vother p => simp [othersKept]
  | vstr s => rfl
  | vint i => rfl
  | vuint n => rfl
  | vbool b => rfl
  | vfloat q => rfl

theorem othersKeptF_refl (fs : GoFields) : othersKeptF fs fs = true := by
  cases fs with
  | nil => rfl
  | cons t e v r => simp [othersKeptF, othersKept_refl v, othersKeptF_refl r]
end

theorem setField_others (E : Env) (c : Bool) (v : GoValue) (k : String) :
    othersKept v (setField E c v k).2 = true := by
  cases c <;> cases v <;> simp [setField, othersKept, othersKeptF_refl]

theorem setField_none_eq {E : Env} {c : Bool} {v : GoValue} {k : String}
    {o : Option String} {w' : GoValue} (hsf : setField E c v k = (o, w')) : o = none := by
  have h := setField_fst E c v k
  rw [hsf] at h
  simpa using h

theorem setField_others_eq {E : Env} {c : Bool} {v : GoValue} {k : String}
    {o : Option String} {w' : GoValue} (hsf : setField E c v k = (o, w')) :
    othersKept v w' = true := by
  have h := setField_others E c v k
  rw [hsf] at h
  simpa using h

/-! ### Inversion and structural lemmas about the traversal -/

theorem parseFields_leaf_step (E : Env) (a : Bool) (tag : String) (ex : Bool) (v : GoValue)
    {rest : GoFields} {e : Option String} {r' : GoFields}
    (hns : isStructV v = false)
    (hr : parseFields E a rest = .fret e r') :
    parseFields E a (.cons tag ex v rest) =
      .fret e (.cons tag ex (if tag = "" then v else (setField E (a && ex) v tag).2) r') := by
  cases v
  case vstruct gs => simp [isStructV] at hns
  all_goals
    by_cases ht : tag = ""
    · simp [parseFields, ht, hr]
    · simp only [parseFields, if_neg ht]
      split
      · next err w' hsf =>
          have hz := setField_none_eq hsf
          simp at hz
      · next w' hsf =>
          rw [hr, hsf]

theorem parseVal_ret {E : Env} {a : Bool} {v : GoValue} {p : String} {e : Option String}
    {v' : GoValue} (h : parseVal E a v p = .ret e v') :
    ∃ fs fs', v = .vstruct fs ∧ v' = .vstruct fs' ∧ parseFields E a fs = .fret e fs' := by
  cases v with
  | vstruct fs =>
      cases hf : parseFields E a fs with
      | panicked => simp [parseVal, hf] at h
      | fret e2 fs2 =>
          have h2 : parseVal E a (GoValue.vstruct fs) p = .ret e2 (.vstruct fs2) := by
            simp [parseVal, hf]
          rw [h2] at h
          injection h with he hv
          exact ⟨fs, fs2, rfl, hv.symm, by rw [hf, he]⟩
  | vstr s => simp [parseVal] at h
  | vint i => simp [parseVal] at h
  | vuint n => simp [parseVal] at h
  | vbool b => simp [parseVal] at h
  | vfloat q => simp [parseVal] at h
  | vother p2 => simp [parseVal] at h

theorem parseFields_fret {E : Env} {a : Bool} :
    ∀ (fs : GoFields) {e : Option String} {fs' : GoFields},
      parseFields E a fs = .fret e fs' → e = none ∧ othersKeptF fs fs' = true := by
  intro fs
  cases fs with
  | nil =>
      intro e fs' h
      replace h : FResult.fret none .nil = .fret e fs' := h
      injection h with he hf
      subst he; subst hf
      exact ⟨rfl, rfl⟩
  | cons tag ex v rest =>
      intro e fs' h
      cases v
      case vstruct gs =>
        simp only [parseFields] at h
        split at h
        · exact FResult.noConfusion h
        · split at h
          · exact FResult.noConfusion h
          · split at h
            · exact FResult.noConfusion h
            · next e1 v1 hpv =>
                split at h
                · exact FResult.noConfusion h
                · next e2 r2 hpr =>
                    injection h with he hf
                    subst he; subst hf
                    obtain ⟨gs0, gs2, hgs0, hv1, hparse⟩ := parseVal_ret hpv
                    subst hv1
                    have hgs0' : gs = gs0 := by injection hgs0
                    subst hgs0'
                    have hrest := parseFields_fret rest hpr
                    have hgs := parseFields_fret gs hparse
                    refine ⟨hrest.1, ?_⟩
                    simp [othersKeptF, othersKept, hgs.2, hrest.2]
      all_goals
        simp only [parseFields] at h
        split at h
        · split at h
          · exact FResult.noConfusion h
          · next e2 r2 hpr =>
              injection h with he hf
              subst he; subst hf
              have hrest := parseFields_fret rest hpr
              exact ⟨hrest.1, by simp [othersKeptF, othersKept_refl, hrest.2]⟩
        · split at h
          · next err w' hsf =>
              have hz := setField_none_eq hsf
              simp at hz
          · next w' hsf =>
              split at h
              · exact FResult.noConfusion h
              · next e2 r2 hpr =>
                  injection h with he hf
                  subst he; subst hf
                  have hrest := parseFields_fret rest hpr
                  have hk := setField_others_eq hsf
                  exact ⟨hrest.1, by simp [othersKeptF, hk, hrest.2]⟩

theorem parseFields_total (E : Env) :
    ∀ (fs : GoFields), structsExportedF fs = true →
      ∃ fs', parseFields E true fs = .fret none fs' := by
  intro fs
  cases fs with
  | nil => exact fun _ => ⟨.nil, rfl⟩
  | cons tag ex v rest =>
      intro h
      simp only [structsExportedF, Bool.and_eq_true] at h
      obtain ⟨⟨hm, hsv⟩, hr⟩ := h
      obtain ⟨r', hr'⟩ := parseFields_total E rest hr
      cases v
      case vstruct gs =>
        have hex : ex = true := by simpa using hm
        have hsv' : structsExportedF gs = true := by simpa [structsExported] using hsv
        obtain ⟨gs', hg⟩ := parseFields_total E gs hsv'
        subst hex
        exact ⟨.cons tag true (.vstruct gs') r', by simp [parseFields, parseVal, hg, hr']⟩
      all_goals
        exact ⟨_, parseFields_leaf_step E true tag ex _ (by rfl) hr'⟩

/-! ### Round-trip lemmas -/

theorem setField_roundTrip {E : Env} {tag : String} {v w : GoValue}
    (h : roundTripField E tag v = some w) : setField E true v tag = (none, w) := by
  cases v with
  | vstr s0 =>
      simp only [roundTripField] at h
      cases hE : E tag with
      | none => rw [hE] at h; exact Option.noConfusion h
      | some s =>
          rw [hE] at h
          replace h : some (GoValue.vstr s) = some w := h
          injection h with h'
          subst h'
          by_cases hs : s = "" <;> simp [setField, GetString, Get, hE, hs]
  | vint i0 =>
      simp only [roundTripField, Option.map_eq_some'] at h
      obtain ⟨i, hp, rfl⟩ := h
      have hne : ¬(Get E tag = "") := parseIntGo_ne_empty hp
      simp [setField, GetInt64, ParseInt, hne, hp]
  | vuint n0 =>
      simp only [roundTripField] at h
      cases hu : parseUintGo (Get E tag) with
      | none => rw [hu] at h; exact Option.noConfusion h
      | some n =>
          rw [hu] at h
          replace h : (if n < 2 ^ 63 then some (GoValue.vuint n) else none) = some w := h
          by_cases hn : n < 2 ^ 63
          · rw [if_pos hn] at h
            injection h with h'
            subst h'
            have hi := parseUintGo_parseIntGo_lt hu hn
            have hne : ¬(Get E tag = "") := parseUintGo_ne_empty hu
            simp [setField, GetInt64, ParseInt, hne, hi, goUintOfInt]
            omega
          · rw [if_neg hn] at h
            exact Option.noConfusion h
  | vbool b0 =>
      simp only [roundTripField, Option.map_eq_some'] at h
      obtain ⟨b, hp, rfl⟩ := h
      have hne : ¬(Get E tag = "") := parseBoolGo_ne_empty hp
      simp [setField, GetBool, ParseBool, hne, hp]
  | vfloat q0 =>
      simp only [roundTripField, Option.map_eq_some'] at h
      obtain ⟨q, hp, rfl⟩ := h
      have hne : ¬(Get E tag = "") := parseFloatGo_ne_empty hp
      simp [setField, GetFloat64, ParseFloat, hne, hp]
  | vother p => simp [roundTripField] at h
  | vstruct fs => simp [roundTripField] at h

theorem parseFields_leaf_rt (E : Env) (tag : String) {v w : GoValue} {rest r' : GoFields}
    {e : Option String} (ht : ¬(tag = "")) (hw : roundTripField E tag v = some w)
    (hr : parseFields E true rest = .fret e r') :
    parseFields E true (.cons tag true v rest) = .fret e (.cons tag true w r') := by
  have hns : isStructV v = false := by
    cases v <;> first | rfl | simp [roundTripField] at hw
  rw [parseFields_leaf_step E true tag true v hns hr]
  have hsf := setField_roundTrip hw
  simp [ht, hsf]

theorem parseFields_flat (E : Env) :
    ∀ (fs : GoFields), flatWF E fs = true →
      parseFields E true fs = .fret none (flatTarget E fs) := by
  intro fs
  cases fs with
  | nil => intro _; rfl
  | cons tag ex v rest =>
      intro h
      simp only [flatWF, Bool.and_eq_true] at h
      obtain ⟨hc, hr⟩ := h
      have ih := parseFields_flat E rest hr
      cases v
      case vstruct gs => exact Bool.noConfusion (show false = true from hc)
      case vother p =>
        have ht : tag = "" := by
          have hc2 : (tag == "") = true := hc
          simpa using hc2
        simp [parseFields, flatTarget, ht, ih]
      all_goals
        by_cases ht : tag = ""
        · simp [parseFields, flatTarget, ht, ih]
        · simp [ht] at hc
          obtain ⟨hex, hsome⟩ := hc
          obtain ⟨w, hw⟩ := Option.isSome_iff_exists.mp hsome
          subst hex
          rw [parseFields_leaf_rt E tag ht hw ih]
          simp [flatTarget, ht, hw]

theorem parseFields_oneLevel (E : Env) :
    ∀ (fs : GoFields), oneLevelWF E fs = true →
      parseFields E true fs = .fret none (oneLevelTarget E fs) := by
  intro fs
  cases fs with
  | nil => intro _; rfl
  | cons tag ex v rest =>
      intro h
      simp only [oneLevelWF, Bool.and_eq_true] at h
      obtain ⟨hc, hr⟩ := h
      have ih := parseFields_oneLevel E rest hr
      cases v
      case vstruct gs =>
        replace hc : (ex && flatWF E gs) = true := hc
        rw [Bool.and_eq_true] at hc
        obtain ⟨hex, hfl⟩ := hc
        have hg := parseFields_flat E gs hfl
        subst hex
        simp [parseFields, parseVal, oneLevelTarget, hg, ih]
      case vother p =>
        have ht : tag = "" := by
          have hc2 : (tag == "") = true := hc
          simpa using hc2
        simp [parseFields, oneLevelTarget, ht, ih]
      all_goals
        by_cases ht : tag = ""
        · simp [parseFields, oneLevelTarget, ht, ih]
        · simp [ht] at hc
          obtain ⟨hex, hsome⟩ := hc
          obtain ⟨w, hw⟩ := Option.isSome_iff_exists.mp hsome
          subst hex
          rw [parseFields_leaf_rt E tag ht hw ih]
          simp [oneLevelTarget, ht, hw]

/-! ### Claim theorems -/

/-- C1: the spec and the doc comments at env.go:29 and env.go:69 say that
when the environment variable is not present the field value is not
modified.  The code instead unconditionally assigns the resolver result,
which is the zero default when the variable is absent: with `PORT` unset
and a prior field value `7`, `Parse` overwrites the field with `0`. -/
theorem c1_absent_overwrites_prior :
    Parse (fun _ => none) (.ptrTo (.vstruct (.cons "PORT" true (.vint 7) .nil))) =
      .ret none (.vstruct (.cons "PORT" true (.vint 0) .nil)) := rfl

/-- C2: with the environment fully cleared and a two-field annotated
struct at its zero values, `Parse` returns — with a nil error, not the
non-nil error the claim (and the repo's own strict-policy test
`TestParse_EnvironmentVariablesNotSet`) demands; the fields do remain at
their zero values. -/
theorem c2_cleared_env_nil_error :
    Parse (fun _ => none)
        (.ptrTo (.vstruct (.cons "PORT" true (.vint 0)
          (.cons "HOST" true (.vstr "") .nil)))) =
      .ret none (.vstruct (.cons "PORT" true (.vint 0)
        (.cons "HOST" true (.vstr "") .nil))) := rfl

/-- C3 counterexample: a variable that is set to the empty string is
reported not-present by the string resolver — `GetString` returns the
caller's default `"dflt"`, not the stored value `""`, although the
claim requires a set variable to be reported present. -/
theorem c3_counterexample :
    (fun k => if k = "S" then some "" else none : Env) "S" = some "" ∧
    GetString (fun k => if k = "S" then some "" else none) "S" "dflt" = "dflt" ∧
    ¬(("dflt" : String) = "") := ⟨rfl, rfl, by decide⟩

/-- C3 amended: for every primitive resolver, the caller's default is
returned for every default value (i.e. the key is reported not-present)
iff the looked-up value is empty — the variable is unset or set to the
empty string — or its value fails to parse as the target type.  In
particular the string resolver reports a set-but-empty variable as
not-present. -/
theorem c3_resolver_presence (E : Env) (k : String) :
    (Get E k = "" ↔ (E k = none ∨ E k = some "")) ∧
    ((∀ d, GetString E k d = d) ↔ Get E k = "") ∧
    ((∀ d, GetInt64 E k d = d) ↔ (Get E k = "" ∨ parseIntGo (Get E k) = none)) ∧
    ((∀ d, GetUint64 E k d = d) ↔ (Get E k = "" ∨ parseUintGo (Get E k) = none)) ∧
    ((∀ d, GetBool E k d = d) ↔ (Get E k = "" ∨ parseBoolGo (Get E k) = none)) ∧
    ((∀ d, GetFloat64 E k d = d) ↔ (Get E k = "" ∨ parseFloatGo (Get E k) = none)) := by
  refine ⟨?_, ?_, ?_, ?_, ?_, ?_⟩
  · cases hE : E k <;> simp [Get, hE]
  · constructor
    · intro hall
      by_cases hg : Get E k = ""
      · exact hg
      · have h0 := hall ""
        simp only [GetString] at h0
        rw [if_neg hg] at h0
        exact absurd h0 hg
    · intro hg d
      simp [GetString, hg]
  · constructor
    · intro hall
      by_cases hg : Get E k = ""
      · exact Or.inl hg
      · cases hp : parseIntGo (Get E k) with
        | none => exact Or.inr rfl
        | some i =>
            exfalso
            have h0 := hall 0
            have h1 := hall 1
            simp [GetInt64, ParseInt, hg, hp] at h0 h1
            omega
    · rintro (hg | hp) d
      · simp [GetInt64, hg]
      · by_cases hg : Get E k = ""
        · simp [GetInt64, hg]
        · simp [GetInt64, ParseInt, hg, hp]
  · constructor
    · intro hall
      by_cases hg : Get E k = ""
      · exact Or.inl hg
      · cases hp : parseUintGo (Get E k) with
        | none => exact Or.inr rfl
        | some n =>
            exfalso
            have h0 := hall 0
            have h1 := hall 1
            simp [GetUint64, ParseUint, hg, hp] at h0 h1
            omega
    · rintro (hg | hp) d
      · simp [GetUint64, hg]
      · by_cases hg : Get E k = ""
        · simp [GetUint64, hg]
        · simp [GetUint64, ParseUint, hg, hp]
  · constructor
    · intro hall
      by_cases hg : Get E k = ""
      · exact Or.inl hg
      · cases hp : parseBoolGo (Get E k) with
        | none => exact Or.inr rfl
        | some b =>
            exfalso
            have h0 := hall false
            have h1 := hall true
            simp [GetBool, ParseBool, hg, hp] at h0 h1
            exact Bool.noConfusion (h0.symm.trans h1)
    · rintro (hg | hp) d
      · simp [GetBool, hg]
      · by_cases hg : Get E k = ""
        · simp [GetBool, hg]
        · simp [GetBool, ParseBool, hg, hp]
  · constructor
    · intro hall
      by_cases hg : Get E k = ""
      · exact Or.inl hg
      · cases hp : parseFloatGo (Get E k) with
        | none => exact Or.inr rfl
        | some q =>
            exfalso
            have h0 := hall 0
            have h1 := hall 1
            simp [GetFloat64, ParseFloat, hg, hp] at h0 h1
            exact zero_ne_one (h0.symm.trans h1)
    · rintro (hg | hp) d
      · simp [GetFloat64, hg]
      · by_cases hg : Get E k = ""
        · simp [GetFloat64, hg]
        · simp [GetFloat64, ParseFloat, hg, hp]

/-- C4 counterexample: `18446744073709551615 = 2 ^ 64 - 1` is a
well-formed `uint64` literal and the unsigned resolver `GetUint64`
returns it, but `Parse` on a `uint64` field assigns `0` because
`setField` dispatches the field to the signed resolver `GetInt64`
(env.go:91), which rejects the literal as out of `int64` range. -/
theorem c4_counterexample :
    parseUintGo "18446744073709551615" = some 18446744073709551615 ∧
    GetUint64 (fun k => if k = "N" then some "18446744073709551615" else none) "N" 0 =
      18446744073709551615 ∧
    Parse (fun k => if k = "N" then some "18446744073709551615" else none)
        (.ptrTo (.vstruct (.cons "N" true (.vuint 3) .nil))) =
      .ret none (.vstruct (.cons "N" true (.vuint 0) .nil)) := ⟨rfl, rfl, rfl⟩

/-- C4 amended: for an unsigned-integer field annotated with a non-empty
key whose variable holds a well-formed unsigned literal of value `v`,
`Parse` dispatches to the signed resolver `GetInt64` and converts with
`uint64(...)`: the field receives `v` when `v < 2 ^ 63` and the default
`0` otherwise (the signed parse fails on larger literals). -/
theorem c4_uint_field_via_signed_resolver (E : Env) (tag s : String) (v p : Nat)
    (ht : ¬(tag = "")) (hs : E tag = some s) (hv : parseUintGo s = some v) :
    Parse E (.ptrTo (.vstruct (.cons tag true (.vuint p) .nil))) =
      .ret none (.vstruct (.cons tag true
        (.vuint (if v < 2 ^ 63 then v else 0)) .nil)) := by
  have hg : Get E tag = s := Get_eq_of_lookup hs
  have hne : ¬(Get E tag = "") := by rw [hg]; exact parseUintGo_ne_empty hv
  have hsf : setField E (true && true) (GoValue.vuint p) tag =
      (none, .vuint (if v < 2 ^ 63 then v else 0)) := by
    by_cases hn : v < 2 ^ 63
    · rw [if_pos hn]
      have hi : parseIntGo (Get E tag) = some (v : Int) := by
        rw [hg]; exact parseUintGo_parseIntGo_lt hv hn
      simp [setField, GetInt64, ParseInt, hne, hi, goUintOfInt]
      omega
    · rw [if_neg hn]
      have hi : parseIntGo (Get E tag) = none := by
        rw [hg]; exact parseUintGo_parseIntGo_ge hv (by omega)
      simp [setField, GetInt64, ParseInt, hne, hi, goUintOfInt]
  have hfs := parseFields_leaf_step E true tag true (.vuint p) rfl
      (show parseFields E true .nil = .fret none .nil from rfl)
  rw [if_neg ht, hsf] at hfs
  show parse E (.ptrTo (.vstruct (.cons tag true (.vuint p) .nil))) "" = _
  simp [parse, parseVal, hfs]

/-- C4 witness: key `M` set to `12345` makes the `uint64` field `12345`. -/
theorem c4_witness :
    Parse (fun k => if k = "M" then some "12345" else none)
        (.ptrTo (.vstruct (.cons "M" true (.vuint 7) .nil))) =
      .ret none (.vstruct (.cons "M" true
        (.vuint (if 12345 < 2 ^ 63 then 12345 else 0)) .nil)) :=
  c4_uint_field_via_signed_resolver _ "M" "12345" 12345 7 (by decide) rfl rfl

/-- C5 counterexample: an input whose value is not a struct makes
`Parse` panic in reflect (`NumField` on a non-struct value); no
`InvalidTargetError` is returned — no such error exists in the code. -/
theorem c5_counterexample :
    Parse (fun _ => none) (.byVal (.vint 5)) = .panicked := rfl

/-- C5 amended: for every input whose dereferenced value is not a
structure, `Parse` panics (crashes) instead of returning
`InvalidTargetError` or any other error. -/
theorem c5_nonstruct_input_panics (E : Env) (config : GoInput)
    (h : isStructV (derefOf config) = false) : Parse E config = .panicked := by
  cases config with
  | ptrTo v => cases v <;> first | rfl | simp [derefOf, isStructV] at h
  | byVal v => cases v <;> first | rfl | simp [derefOf, isStructV] at h

/-- C5 witness: a pointer to an `int64` value panics. -/
theorem c5_witness :
    Parse (fun _ => none) (.ptrTo (.vint 3)) = .panicked :=
  c5_nonstruct_input_panics _ _ rfl

theorem parseVal_pfx_irrel (E : Env) (a : Bool) (v : GoValue) (p q : String) :
    parseVal E a v p = parseVal E a v q := by
  cases v <;> simp [parseVal]

/-- C6: the group-context string carried by `parse` is inert — the
result of `parse` is the same for every value of that argument — and a
nested leaf field is resolved from exactly the literal environment
variable named by its own annotation, for every value of the outer
annotation `oTag`. -/
theorem c6_group_context_inert (E : Env) (config : GoInput) (p q oTag iTag ps : String) :
    parse E config p = parse E config q ∧
    (¬(iTag = "") →
      Parse E (.ptrTo (.vstruct (.cons oTag true
          (.vstruct (.cons iTag true (.vstr ps) .nil)) .nil))) =
        .ret none (.vstruct (.cons oTag true
          (.vstruct (.cons iTag true (.vstr (GetString E iTag "")) .nil)) .nil))) := by
  constructor
  · cases config <;> apply parseVal_pfx_irrel
  · intro ht
    show parse E (.ptrTo (.vstruct (.cons oTag true
        (.vstruct (.cons iTag true (.vstr ps) .nil)) .nil))) "" = _
    simp [parse, parseVal, parseFields, setField, ht]

/-- C6 witness: with only `DSN` set, the nested leaf `DSN` is populated
from the literal key `DSN` under the outer annotation `SUB`, and the
group-context argument is inert on a concrete input. -/
theorem c6_witness :
    (parse (fun k => if k = "DSN" then some "db" else none) (.byVal (.vbool true)) "GRP" =
      parse (fun k => if k = "DSN" then some "db" else none) (.byVal (.vbool true)) "") ∧
    Parse (fun k => if k = "DSN" then some "db" else none)
        (.ptrTo (.vstruct (.cons "SUB" true
          (.vstruct (.cons "DSN" true (.vstr "x") .nil)) .nil))) =
      .ret none (.vstruct (.cons "SUB" true
        (.vstruct (.cons "DSN" true
          (.vstr (GetString (fun k => if k = "DSN" then some "db" else none) "DSN" ""))
          .nil)) .nil)) := by
  have h := c6_group_context_inert (fun k => if k = "DSN" then some "db" else none)
    (.byVal (.vbool true)) "GRP" "" "SUB" "DSN" "x"
  exact ⟨h.1, h.2 (by decide)⟩

/-- C7 counterexample: the flat struct with one `uint64` field annotated
`U`, whose key is set to the well-formed `uint64` literal
`18446744073709551615`, is populated with `0`, not with the literal's
value, so the round-trip claim fails as stated. -/
theorem c7_counterexample :
    parseUintGo "18446744073709551615" = some 18446744073709551615 ∧
    Parse (fun k => if k = "U" then some "18446744073709551615" else none)
        (.ptrTo (.vstruct (.cons "U" true (.vuint 0) .nil))) =
      .ret none (.vstruct (.cons "U" true (.vuint 0) .nil)) ∧
    ¬((0 : Nat) = 18446744073709551615) := ⟨rfl, rfl, by decide⟩

/-- C7 amended: for every flat or one-level-nested struct whose fields
are exported and of supported kinds, with every annotated key set to a
well-formed value — where a `uint64` value must moreover be at most
`2 ^ 63 - 1` — `Parse` produces exactly the struct whose fields are
constructed directly with those values (`oneLevelTarget`; a flat struct
is the special case with no nested field). -/
theorem c7_roundtrip (E : Env) (fs : GoFields) (h : oneLevelWF E fs = true) :
    Parse E (.ptrTo (.vstruct fs)) = .ret none (.vstruct (oneLevelTarget E fs)) := by
  have hf := parseFields_oneLevel E fs h
  show parse E (.ptrTo (.vstruct fs)) "" = _
  simp [parse, parseVal, hf]

/-- C7 witness: a struct with `int64`, `bool`, `float64` and nested
string fields round-trips from `PORT=8080`, `FLAG=true`, `RATE=1.5`,
`DSN=db`. -/
theorem c7_witness :
    Parse (fun k => if k = "PORT" then some "8080" else if k = "FLAG" then some "true"
        else if k = "RATE" then some "1.5" else if k = "DSN" then some "db" else none)
        (.ptrTo (.vstruct (.cons "PORT" true (.vint 0)
          (.cons "FLAG" true (.vbool false)
            (.cons "RATE" true (.vfloat 0)
              (.cons "" true (.vstruct (.cons "DSN" true (.vstr "") .nil)) .nil)))))) =
      .ret none (.vstruct (oneLevelTarget
        (fun k => if k = "PORT" then some "8080" else if k = "FLAG" then some "true"
          else if k = "RATE" then some "1.5" else if k = "DSN" then some "db" else none)
        (.cons "PORT" true (.vint 0)
          (.cons "FLAG" true (.vbool false)
            (.cons "RATE" true (.vfloat 0)
              (.cons "" true (.vstruct (.cons "DSN" true (.vstr "") .nil)) .nil)))))) :=
  c7_roundtrip _ _ (by decide)

/-- C8: the boolean resolver, on a key that is set to `s`, yields `true`
for exactly the six true-forms, `false` for exactly the six false-forms,
and the caller's default (not-present) for every other set value. -/
theorem c8_bool_resolver (E : Env) (k s : String) (hs : E k = some s) :
    ((s = "1" ∨ s = "t" ∨ s = "T" ∨ s = "TRUE" ∨ s = "true" ∨ s = "True") →
      ∀ d, GetBool E k d = true) ∧
    ((s = "0" ∨ s = "f" ∨ s = "F" ∨ s = "FALSE" ∨ s = "false" ∨ s = "False") →
      ∀ d, GetBool E k d = false) ∧
    ((¬(s = "1" ∨ s = "t" ∨ s = "T" ∨ s = "TRUE" ∨ s = "true" ∨ s = "True")) →
      (¬(s = "0" ∨ s = "f" ∨ s = "F" ∨ s = "FALSE" ∨ s = "false" ∨ s = "False")) →
      ∀ d, GetBool E k d = d) := by
  have hg : Get E k = s := Get_eq_of_lookup hs
  refine ⟨?_, ?_, ?_⟩
  · intro hin d
    have hne : ¬(s = "") := by
      rcases hin with h | h | h | h | h | h <;> subst h <;> decide
    have hp : parseBoolGo s = some true := by
      simp only [parseBoolGo]
      rw [if_pos (by tauto)]
    simp [GetBool, hg, hne, ParseBool, hp]
  · intro hin d
    have hne : ¬(s = "") := by
      rcases hin with h | h | h | h | h | h <;> subst h <;> decide
    have hnt : ¬(s = "1" ∨ s = "t" ∨ s = "T" ∨ s = "true" ∨ s = "TRUE" ∨ s = "True") := by
      rcases hin with h | h | h | h | h | h <;> subst h <;> decide
    have hp : parseBoolGo s = some false := by
      simp only [parseBoolGo]
      rw [if_neg hnt, if_pos (by tauto)]
    simp [GetBool, hg, hne, ParseBool, hp]
  · intro hnt hnf d
    by_cases hne : s = ""
    · simp [GetBool, hg, hne]
    · have hp : parseBoolGo s = none := by
        simp only [parseBoolGo]
        rw [if_neg (by tauto), if_neg (by tauto)]
      simp [GetBool, hg, hne, ParseBool, hp]

/-- C8 witness: `FLAG=true` resolves to `true` with default `false`. -/
theorem c8_witness :
    GetBool (fun k => if k = "FLAG" then some "true" else none) "FLAG" false = true :=
  (c8_bool_resolver _ "FLAG" "true" rfl).1
    (Or.inr (Or.inr (Or.inr (Or.inr (Or.inl rfl))))) false

/-- C9: whenever `Parse` returns (on any input and environment), the
returned error is nil and every field of an unsupported kind — at any
depth — still holds its original value: unsupported fields are silently
skipped, with no error and no mutation, even when annotated and set. -/
theorem c9_unsupported_untouched (E : Env) (config : GoInput) (e : Option String)
    (v' : GoValue) (h : Parse E config = .ret e v') :
    e = none ∧ othersKept (derefOf config) v' = true := by
  cases config with
  | ptrTo v =>
      obtain ⟨fs, fs', hv, hv', hf⟩ := parseVal_ret (h : parseVal E true v "" = .ret e v')
      subst hv; subst hv'
      have hk := parseFields_fret fs hf
      exact ⟨hk.1, by simpa [derefOf, othersKept] using hk.2⟩
  | byVal v =>
      obtain ⟨fs, fs', hv, hv', hf⟩ := parseVal_ret (h : parseVal E false v "" = .ret e v')
      subst hv; subst hv'
      have hk := parseFields_fret fs hf
      exact ⟨hk.1, by simpa [derefOf, othersKept] using hk.2⟩

/-- C9 witness: a struct with an unsupported field annotated `X`, with
`X=55` set, returns nil error and the field (payload `42`) unchanged. -/
theorem c9_witness :
    (none : Option String) = none ∧
    othersKept (derefOf (.ptrTo (.vstruct (.cons "X" true (.vother 42) .nil))))
      (.vstruct (.cons "X" true (.vother 42) .nil)) = true :=
  c9_unsupported_untouched (fun k => if k = "X" then some "55" else none)
    (.ptrTo (.vstruct (.cons "X" true (.vother 42) .nil))) none
    (.vstruct (.cons "X" true (.vother 42) .nil)) rfl

/-- C10 counterexample: a pointer-to-struct input with an unexported
nested-structure field makes `Parse` panic in reflect (`Interface` on a
value obtained from an unexported field), so `Parse` does not return nil
on every pointer-to-struct input. -/
theorem c10_counterexample :
    Parse (fun _ => none)
        (.ptrTo (.vstruct (.cons "Sub" false (.vstruct .nil) .nil))) = .panicked := rfl

/-- C10 amended: no error ever propagates to the caller — whenever
`Parse` on a pointer-to-struct input returns, the error is nil — and on
every pointer-to-struct input whose struct-kind fields are all exported
(at every depth) `Parse` does return, with nil error.  (It panics, and
so fails to return nil, on an unexported nested-structure field.) -/
theorem c10_no_error_escapes (E : Env) (v : GoValue) :
    (∀ e v', Parse E (.ptrTo v) = .ret e v' → e = none) ∧
    (isStructV v = true → structsExported v = true →
      ∃ v', Parse E (.ptrTo v) = .ret none v') := by
  constructor
  · intro e v' h
    obtain ⟨fs, fs', hv, hv', hf⟩ := parseVal_ret (h : parseVal E true v "" = .ret e v')
    exact (parseFields_fret fs hf).1
  · intro hstruct hexp
    cases v
    case vstruct fs =>
      replace hexp : structsExportedF fs = true := by simpa [structsExported] using hexp
      obtain ⟨fs', hf⟩ := parseFields_total E fs hexp
      exact ⟨.vstruct fs', by
        show parseVal E true (.vstruct fs) "" = _
        simp [parseVal, hf]⟩
    all_goals simp [isStructV] at hstruct

/-- C10 witness: on a one-field exported struct with the environment
cleared, `Parse` returns nil, in both forms of the amended statement. -/
theorem c10_witness :
    ((none : Option String) = none) ∧
    (∃ v', Parse (fun _ => none)
        (.ptrTo (.vstruct (.cons "PORT" true (.vint 0) .nil))) = .ret none v') := by
  have h := c10_no_error_escapes (fun _ => none)
    (.vstruct (.cons "PORT" true (.vint 0) .nil))
  exact ⟨h.1 none (.vstruct (.cons "PORT" true (.vint 0) .nil)) rfl, h.2 rfl rfl⟩

end env
